import Mathlib

/-!
Verification development for the edge-ai-sizing-tool workload lifecycle and
telemetry core. Definitions are shallow embeddings of the TypeScript source:
pure computations become Lean functions, external effects (command execution,
HTTP, the file system, child-process events) become explicit oracle parameters,
and the effects a function performs are returned as explicit traces.
-/

/-! ## Data model (payload Workload record) -/

/-- Embeds the `source` group of a Workload record: a `type` discriminator
(`file`, `cam`, ...) and a `name`. -/
structure WorkloadSource where
  type : String
  name : String
deriving DecidableEq, Repr

/-- Embeds one entry of the `devices` array of a Workload record; the
`device` field is nullable in the schema. -/
structure DeviceSel where
  device : Option String
deriving DecidableEq, Repr

/-- Embeds the Workload record fields used by the lifecycle hooks. -/
structure Workload where
  id : Nat
  status : String
  usecase : String
  model : String
  port : Nat
  devices : List DeviceSel
  source : Option WorkloadSource
deriving DecidableEq, Repr

/-! ## Character-level string primitives

Kernel-reducible embeddings of the JavaScript string operations the source
uses (`startsWith`, `includes`, `split`), defined by structural recursion on
the character list. -/

/-- True when the first list is an initial segment of the second. -/
def leadsWith : List Char → List Char → Bool
  | [], _ => true
  | _ :: _, [] => false
  | a :: as, b :: bs => a = b && leadsWith as bs

/-- Embeds JavaScript `s.startsWith(pre)`. -/
def strStartsWith (s pre : String) : Bool :=
  leadsWith pre.data s.data

/-- True when `pat` occurs as a contiguous run inside the list. -/
def hasSub (pat : List Char) : List Char → Bool
  | [] => leadsWith pat []
  | c :: rest => leadsWith pat (c :: rest) || hasSub pat rest

/-- Embeds JavaScript `s.includes(pat)`. -/
def strIncludes (s pat : String) : Bool :=
  hasSub pat.data s.data

/-- Embeds JavaScript `s.split(sep)` for a single-character separator. -/
def splitChar (sep : Char) : List Char → List (List Char)
  | [] => [[]]
  | c :: rest =>
    match splitChar sep rest with
    | [] => [[c]]
    | cur :: parts =>
      if c = sep then [] :: cur :: parts else (c :: cur) :: parts

/-- Embeds `candidatePath.split('/')` (POSIX `path.sep`). -/
def strSplitOnSlash (s : String) : List String :=
  (splitChar '/' s.data).map String.mk

/-! ## pm2Lib (src/frontend/src/lib/pm2Lib.ts)

`runCommand` shells out via `execAsync`; we model the shell as an oracle
`exec : String → Except String String` mapping a command line to its stdout
or to an error. Each library function returns the list of command lines it
passed to `runCommand` together with its final outcome. -/

/-- Embeds the character class of `replace(/[^\w.@\-\/ \-]/g, '')`:
word characters, dot, at-sign, dash, slash and space survive. -/
def isPm2NameChar (c : Char) : Bool :=
  c.isAlphanum || c = '_' || c = '.' || c = '@' || c = '-' || c = '/' || c = ' '

/-- Embeds the character class of `replace(/[^\w.@\-\/\\ :,]/g, '')` used for
`params`: additionally backslash, colon and comma survive. -/
def isPm2ParamChar (c : Char) : Bool :=
  c.isAlphanum || c = '_' || c = '.' || c = '@' || c = '-' || c = '/' ||
    c = '\\' || c = ' ' || c = ':' || c = ','

/-- Embeds `s?.replace(/[^\w.@\-\/ \-]/g, '') || ''` (global replacement by
the empty string is a character filter). -/
def sanitizePm2Token (s : String) : String :=
  String.mk (s.data.filter isPm2NameChar)

/-- Embeds `s?.replace(/[^\w.@\-\/\\ :,]/g, '') || ''`. -/
def sanitizePm2Params (s : String) : String :=
  String.mk (s.data.filter isPm2ParamChar)

/-- Embeds `replace(/\s+/g, '-')`: every maximal run of whitespace becomes a
single dash. The flag records whether the previous character was whitespace. -/
def collapseWsAux : Bool → List Char → List Char
  | _, [] => []
  | inWs, c :: rest =>
    if c.isWhitespace then
      if inWs then collapseWsAux true rest
      else '-' :: collapseWsAux true rest
    else c :: collapseWsAux false rest

/-- Embeds `scriptName.replace(/\s+/g, '-')`. -/
def collapseWhitespaceToDash (s : String) : String :=
  String.mk (collapseWsAux false s.data)

/-- Platform path separator, as used by Node `path.join` / `path.resolve`. -/
def pathSep (isWin : Bool) : String := if isWin then "\\" else "/"

/-- Embeds `path.join(a, b)` for the already-normalized paths the library
builds (no normalization is needed on these inputs). -/
def pathJoin2 (isWin : Bool) (a b : String) : String := a ++ pathSep isWin ++ b

/-- Embeds `path.resolve(path.dirname(''), '../workers', name)`. Resolution
against the current working directory is abstracted away: the folder is kept
in its cwd-relative form, which is how it differs per `name`. -/
def scriptFolderPath (isWin : Bool) (name : String) : String :=
  ".." ++ pathSep isWin ++ "workers" ++ pathSep isWin ++ name

/-- Embeds the per-script interpreter path
(`venv/Scripts/pythonw.exe` on Windows, `venv/bin/python` elsewhere). -/
def virtualEnvPath (isWin : Bool) (folder : String) : String :=
  if isWin then
    pathJoin2 isWin (pathJoin2 isWin (pathJoin2 isWin folder "venv") "Scripts") "pythonw.exe"
  else
    pathJoin2 isWin (pathJoin2 isWin (pathJoin2 isWin folder "venv") "bin") "python"

/-- Embeds `runCommand`: logging aside, it returns the oracle's stdout and
rethrows the oracle's error unchanged (the catch block only logs). -/
def runCommand (exec : String → Except String String) (command : String) :
    Except String String :=
  exec command

deriving instance DecidableEq for Except

/-- Result of one pm2Lib call: the command lines passed to `runCommand`, in
order, and the final outcome (`Except.error` models a thrown exception). -/
structure Pm2Result where
  commands : List String
  outcome : Except String Unit
deriving DecidableEq, Repr

/-- Command line built by `startPm2Process` from the already-sanitized
inputs, mirroring the two branches of the source. -/
def startCommand (isWin : Bool) (pm2Name scriptName params : String) : String :=
  if scriptName = "" && params = "" then
    "npx pm2 start " ++ pm2Name
  else
    let scriptFolder := scriptFolderPath isWin (collapseWhitespaceToDash scriptName)
    let venv := virtualEnvPath isWin scriptFolder
    let scriptPath := pathJoin2 isWin scriptFolder "main.py"
    "npx pm2 start " ++ scriptPath ++ " --name " ++ pm2Name ++
      " --interpreter=" ++ venv ++ " --no-autorestart -- " ++ params

/-- Embeds `startPm2Process(pm2Name, scriptName, params)`: each input is
sanitized by character filtering, then a single pm2 command is executed. -/
def startPm2Process (isWin : Bool) (exec : String → Except String String)
    (pm2Name scriptName params : String) : Pm2Result :=
  let n := sanitizePm2Token pm2Name
  let s := sanitizePm2Token scriptName
  let p := sanitizePm2Params params
  let cmd := startCommand isWin n s p
  ⟨[cmd], (runCommand exec cmd).map (fun _ => ())⟩

/-- Command line built by `stopPm2Process` from the sanitized name. -/
def stopCommand (pm2Name : String) : String := "npx pm2 stop " ++ pm2Name

/-- Embeds `stopPm2Process(pm2Name)`: sanitizes the name and runs
`npx pm2 stop` unconditionally; a failing command propagates as an error. -/
def stopPm2Process (exec : String → Except String String) (pm2Name : String) :
    Pm2Result :=
  let n := sanitizePm2Token pm2Name
  let cmd := stopCommand n
  ⟨[cmd], (runCommand exec cmd).map (fun _ => ())⟩

/-- Command line built by `deletePm2Process` from the sanitized name. -/
def deleteCommand (pm2Name : String) : String := "npx pm2 delete " ++ pm2Name

/-- Embeds `deletePm2Process(pm2Name)`. -/
def deletePm2Process (exec : String → Except String String) (pm2Name : String) :
    Pm2Result :=
  let n := sanitizePm2Token pm2Name
  let cmd := deleteCommand n
  ⟨[cmd], (runCommand exec cmd).map (fun _ => ())⟩

/-! ## deleteWorkloadAfterDelete
(src/frontend/src/collections/Workloads/hooks/deleteWorkloadAfterDelete.ts)

The hook owns three external effects: `fs.unlinkSync`, `stopPm2Process` and
`deletePm2Process`. We record the invocations it makes as a trace, together
with the hook's own outcome (normal return of `doc`, or a propagated
exception). The file system is an oracle pair: `fsExists : String → Bool`
for `fs.existsSync` and `unlink : String → Except String Unit` for
`fs.unlinkSync`, whose thrown error aborts the hook before the pm2 calls;
the shell behind pm2Lib is the usual `exec` oracle, and a failure of the
awaited `stopPm2Process` (rethrown by `runCommand`) aborts the hook before
`deletePm2Process`. Node path functions are embedded for the POSIX flavor
on the shapes they are actually applied to: an absolute, normalized,
non-root trusted directory joined with a single separator-free segment
(the result of `path.basename`). -/

/-- Embeds POSIX `path.basename`: trailing separators are dropped and the
last nonempty segment is returned (the empty string when none exists). -/
def posixBasename (s : String) : String :=
  (((strSplitOnSlash s).filter (fun seg => seg ≠ "")).getLastD "")

/-- Parent directory of an absolute normalized path, used to embed
`path.resolve` when the joined segment is `..`. -/
def parentPath (p : String) : String :=
  "/" ++ String.intercalate "/"
    (((strSplitOnSlash p).filter (fun seg => seg ≠ "")).dropLast)

/-- Embeds `path.resolve(path.join(base, raw))` for an absolute normalized
`base` and a separator-free `raw` (a `path.basename` result): `..` steps to
the parent, `.` and the empty segment stay at `base`, anything else is
appended as one more segment. -/
def resolveJoin (base raw : String) : String :=
  if raw = ".." then parentPath base
  else if raw = "." || raw = "" then base
  else base ++ "/" ++ raw

/-- Embeds the character class of the filename allow-list `^[a-zA-Z0-9._-]+$`. -/
def allowedFilenameChar (c : Char) : Bool :=
  c.isAlpha || c.isDigit || c = '.' || c = '_' || c = '-'

/-- Embeds the filename allow-list test `/^[a-zA-Z0-9._-]+$/.test(rawName)`. -/
def filenameAllowList (s : String) : Bool :=
  !s.isEmpty && s.data.all allowedFilenameChar

/-- Embeds the character class of the per-segment re-validation `^[\w.-]+$`. -/
def wordPathChar (c : Char) : Bool :=
  c.isAlphanum || c = '_' || c = '.' || c = '-'

/-- Embeds the per-segment test `/^[\w.-]+$/.test(part)`. -/
def segmentAllowList (s : String) : Bool :=
  !s.isEmpty && s.data.all wordPathChar

/-- External effect performed by the after-delete hook. -/
inductive DeleteEffect
  | unlink (p : String)
  | pm2stop (name : String)
  | pm2delete (name : String)
deriving DecidableEq, Repr

/-- Embeds the decision of the file-handling block of the hook: `none` when
one of the early `return doc` statements fires (path outside the trusted
directory, filename outside the allow-list, or a failing path-segment
re-validation); `some none` when control falls through with no file to
unlink; `some (some p)` when the block decides to unlink `p`. `assetsPath`
stands for `path.resolve(ASSETS_PATH)` (an absolute normalized directory);
the local consts `basePath`, `rawName`, `candidatePath` and `parts` of the
source are inlined. -/
def deleteFileStep (assetsPath : String) (fsExists : String → Bool)
    (doc : Workload) : Option (Option String) :=
  match doc.source with
  | some src =>
    if src.type = "file" && src.name ≠ "" then
      if !(strStartsWith (resolveJoin assetsPath (posixBasename src.name))
          assetsPath) then none
      else if !(filenameAllowList (posixBasename src.name)) then none
      else if fsExists (resolveJoin assetsPath (posixBasename src.name)) then
        if (strSplitOnSlash (resolveJoin assetsPath
            (posixBasename src.name))).all segmentAllowList then
          some (some (String.intercalate "/"
            (strSplitOnSlash (resolveJoin assetsPath
              (posixBasename src.name)))))
        else none
      else some none
    else some none
  | none => some none

/-- Result of one run of the after-delete hook: the external invocations it
made, in order, and its outcome (`Except.error` models an exception
propagating out of the hook). -/
structure DeleteHookResult where
  effects : List DeleteEffect
  outcome : Except String Unit
deriving DecidableEq, Repr

/-- Embeds the tail of the hook, `await stopPm2Process(id)` followed by
`await deletePm2Process(id)`: neither await is guarded, so a failing stop
command (rethrown by `runCommand`) propagates and `deletePm2Process` is
never invoked; a failing delete propagates after both invocations. -/
def pm2Cleanup (exec : String → Except String String) (id : String)
    (fileFx : List DeleteEffect) : DeleteHookResult :=
  match (stopPm2Process exec id).outcome with
  | Except.error e => ⟨fileFx ++ [DeleteEffect.pm2stop id], Except.error e⟩
  | Except.ok () =>
      ⟨fileFx ++ [DeleteEffect.pm2stop id, DeleteEffect.pm2delete id],
        (deletePm2Process exec id).outcome⟩

/-- Embeds `deleteWorkloadAfterDelete({doc})`: the file-handling block may
return early (no pm2 calls), or attempt the unlink it decided on — a
throwing `fs.unlinkSync` aborts the hook before any pm2 call — and only
then the unguarded pm2 cleanup runs. -/
def deleteWorkloadAfterDelete (assetsPath : String) (fsExists : String → Bool)
    (unlink : String → Except String Unit)
    (exec : String → Except String String) (doc : Workload) :
    DeleteHookResult :=
  match deleteFileStep assetsPath fsExists doc with
  | none => ⟨[], Except.ok ()⟩
  | some none => pm2Cleanup exec (toString doc.id) []
  | some (some p) =>
    match unlink p with
    | Except.error e => ⟨[DeleteEffect.unlink p], Except.error e⟩
    | Except.ok () => pm2Cleanup exec (toString doc.id) [DeleteEffect.unlink p]

/-- Condition under which the file-handling block of the hook hits one of
its early `return doc` statements. -/
def deleteValidationRejects (assetsPath : String) (fsExists : String → Bool)
    (doc : Workload) : Bool :=
  (deleteFileStep assetsPath fsExists doc).isNone

/-! ## createWorkloadAfterChange
(src/frontend/src/collections/Workloads/hooks/createWorkloadAfterChange.ts)

The hook drives pm2Lib from a record transition; we record its calls as a
trace of Supervisor invocations with the raw (pre-sanitization) arguments. -/

/-- Supervisor invocation issued by the lifecycle hook. -/
inductive HookCall
  | stopCall (name : String)
  | startCall (name scriptName params : String)
deriving DecidableEq, Repr

/-- Embeds the `doc.devices.reduce` expression: starting from the empty
string, append each entry's `device.device || ''`, inserting a comma only
once the accumulator is nonempty. -/
def devicesNameOf (devices : List DeviceSel) : String :=
  devices.foldl
    (fun acc d =>
      if acc = "" then d.device.getD "" else acc ++ "," ++ d.device.getD "")
    ""

/-- Embeds `createWorkloadAfterChange({doc, previousDoc})` as the trace of
pm2Lib invocations it performs, given the previous record status.
`assetsPath` stands for `ASSETS_PATH`. -/
def createWorkloadAfterChange (assetsPath : String) (previousStatus : String)
    (doc : Workload) : List HookCall :=
  if previousStatus = "active" && doc.status = "inactive" then
    [HookCall.stopCall (toString doc.id)]
  else if previousStatus = "inactive" && doc.status = "active" then
    [HookCall.startCall (toString doc.id) "" ""]
  else if doc.status = "prepare" then
    let devicesName := devicesNameOf doc.devices
    let devices :=
      if 1 < doc.devices.length then "AUTO:" ++ devicesName else devicesName
    let baseParams :=
      "--device " ++ devices ++ " --model " ++ doc.model ++
        " --port " ++ toString doc.port ++ " --id " ++ toString doc.id
    let dlstreamer :=
      strIncludes doc.usecase "(DLStreamer" &&
        (match doc.source with
         | some src => src.name ≠ ""
         | none => false)
    match doc.source, dlstreamer with
    | some src, true =>
        let withTcp :=
          if doc.port ≠ 0 then
            baseParams ++ " --tcp_port " ++ toString (doc.port + 1000)
          else baseParams
        let params :=
          if src.type ≠ "cam" then
            withTcp ++ " --input " ++ (assetsPath ++ "/" ++ src.name)
          else withTcp ++ " --input " ++ src.name
        [HookCall.startCall (toString doc.id) "dlstreamer" params]
    | _, _ =>
        [HookCall.startCall (toString doc.id) doc.usecase baseParams]
  else []

/-! ## gpu-utilization route
(src/frontend/src/app/custom/gpu-utilization/route.ts, Linux branch)

`intel_gpu_top` is a child process; its observable behavior is the ordered
list of events delivered to the handlers registered in
`getGpuUtilizationLinux`. `JSON.parse` is a JavaScript builtin, modeled as
an oracle producing either a thrown message or the fields the route reads
(the `engines` object as an association list of `busy` values, `none` when
the parsed value has no usable `engines` object, in which case the property
access throws and the promise rejects). -/

/-- Left-brace character, written via its code point. -/
def leftBrace : Char := Char.ofNat 123

/-- Fields of the parsed `intel_gpu_top` JSON the route reads. -/
structure EnginesJson where
  engines : Option (List (String × Option Int))
deriving DecidableEq, Repr

/-- Event delivered by a spawned child process to the route's handlers. -/
inductive ProcEvent
  | stderrData
  | stdoutData (s : String)
  | errorEvt (msg : String)
  | closeEvt
deriving DecidableEq, Repr

/-- Settled state of the per-device promise. -/
inductive Settled
  | resolved (v : Int)
  | rejected (msg : String)
deriving DecidableEq, Repr

/-- Embeds `jsonData.engines[key]?.busy`: defined only when the key is
present with a non-null `busy`. -/
def engineBusy (engines : List (String × Option Int)) (key : String) :
    Option Int :=
  match engines.lookup key with
  | some (some v) => some v
  | _ => none

/-- Embeds the `?? `-fallback chain selecting the utilization value from the
parsed `engines` object, keyed on the OS version. -/
def utilizationOf (osVersion : String) (engines : List (String × Option Int)) :
    Int :=
  if strStartsWith osVersion "22.04" then
    (((engineBusy engines "[unknown]/0").orElse
        (fun _ => engineBusy engines "Compute/0")).orElse
      (fun _ => engineBusy engines "Render/3D/0")).getD 0
  else
    ((engineBusy engines "Compute/0").orElse
      (fun _ => engineBusy engines "Render/3D/0")).getD 0

/-- Embeds `getGpuUtilizationLinux`: the first decisive event settles the
promise (the `resolved` flag suppresses later events). Stderr output and a
close without stdout resolve with 0; stdout either resolves with the parsed
utilization or rejects (no left brace in the chunk, a `JSON.parse` throw, or
a missing `engines` object); a spawn error rejects. `none` means no event
ever settled the promise. -/
def getGpuUtilizationLinux (parseJson : String → Except String EnginesJson)
    (osVersion : String) : List ProcEvent → Option Settled
  | [] => none
  | ProcEvent.stderrData :: _ => some (Settled.resolved 0)
  | ProcEvent.stdoutData s :: _ =>
    if s.data.contains leftBrace then
      match parseJson (String.mk (s.data.dropWhile (fun c => c ≠ leftBrace))) with
      | Except.error e => some (Settled.rejected e)
      | Except.ok j =>
        match j.engines with
        | none => some (Settled.rejected "TypeError")
        | some engines => some (Settled.resolved (utilizationOf osVersion engines))
    else some (Settled.rejected "No JSON found")
  | ProcEvent.errorEvt m :: _ => some (Settled.rejected m)
  | ProcEvent.closeEvt :: _ => some (Settled.resolved 0)

/-- Descriptor of one GPU as carried in the request body (`busaddr` is
nullable). -/
structure GpuData where
  device : String
  busaddr : Option String
deriving DecidableEq, Repr

/-- JavaScript truthiness of the nullable `gpu.busaddr`. -/
def busaddrTruthy : Option String → Bool
  | some a => a ≠ ""
  | none => false

/-- Embeds `isValidBusAddress` of the gpu-utilization route: the regex
`^([0-9a-fA-F]{2}):([0-9a-fA-F]{2})\.[0-9]$` (the falsiness guard is
subsumed: the empty string matches no 7-character shape). -/
def isHexChar (c : Char) : Bool :=
  c.isDigit || ('a' ≤ c && c ≤ 'f') || ('A' ≤ c && c ≤ 'F')

/-- Character-level body of the bus-address core pattern
`hex hex colon hex hex dot digit`. -/
def busCoreChars : List Char → Bool
  | [a, b, c, d, e, f, g] =>
    isHexChar a && isHexChar b && c = ':' && isHexChar d && isHexChar e &&
      f = '.' && g.isDigit
  | _ => false

/-- Embeds the gpu-utilization route's `isValidBusAddress`. -/
def isValidBusAddress_gpuUtil (s : String) : Bool :=
  busCoreChars s.data

/-- Per-device sample object produced by the gpu-utilization POST. -/
structure GpuSample where
  device : String
  busaddr : Option String
  value : Int
  error : Option String
deriving DecidableEq, Repr

/-- Outcome of the promise built for one GPU inside the `Promise.all` fan-out
of the gpu-utilization POST (`none` models a never-settling promise). -/
def gpuSampleOutcome (parseJson : String → Except String EnginesJson)
    (osVersion : String) (events : GpuData → List ProcEvent) (gpu : GpuData) :
    Option (Except String GpuSample) :=
  if busaddrTruthy gpu.busaddr &&
      isValidBusAddress_gpuUtil (gpu.busaddr.getD "") then
    match getGpuUtilizationLinux parseJson osVersion (events gpu) with
    | none => none
    | some (Settled.resolved v) =>
        some (Except.ok ⟨gpu.device, gpu.busaddr, v, none⟩)
    | some (Settled.rejected e) => some (Except.error e)
  else
    some (Except.ok ⟨gpu.device, gpu.busaddr, 0,
      some "Invalid or missing bus address"⟩)

/-- Embeds `Promise.all`: rejected as soon as any constituent rejects,
resolved with the list of values once all resolve, pending otherwise. -/
def promiseAll {α : Type} (xs : List (Option (Except String α))) :
    Option (Except String (List α)) :=
  match xs.findSome? (fun x =>
    match x with
    | some (Except.error e) => some e
    | _ => none) with
  | some e => some (Except.error e)
  | none =>
    if xs.all (fun x => x.isSome) then
      some (Except.ok (xs.filterMap (fun x =>
        match x with
        | some (Except.ok a) => some a
        | _ => none)))
    else none

/-- Response of the gpu-utilization POST: the merged samples on success, the
catch-block 500 JSON on a rejection. -/
inductive PostResponse
  | ok (samples : List GpuSample)
  | serverError (msg : String)
deriving DecidableEq, Repr

/-- Embeds the Linux branch of the gpu-utilization `POST` for a request that
carries its GPU list: fan out one promise per GPU, `Promise.all` them, and
answer with the merged samples, or with a 500 error when the joint promise
rejects (the surrounding try/catch). -/
def gpuUtilizationPOST (parseJson : String → Except String EnginesJson)
    (osVersion : String) (events : GpuData → List ProcEvent)
    (gpus : List GpuData) : Option PostResponse :=
  match promiseAll (gpus.map (gpuSampleOutcome parseJson osVersion events)) with
  | none => none
  | some (Except.ok samples) => some (PostResponse.ok samples)
  | some (Except.error e) => some (PostResponse.serverError e)

/-- Argument vector passed to `spawn('intel_gpu_top', ...)`, keyed on the OS
version. -/
def gpuUtilCommandArgs (osVersion formattedBusAddress : String) : List String :=
  if strStartsWith osVersion "24.04" then
    ["-J", "-p", "-d", formattedBusAddress]
  else ["-J", "-d", formattedBusAddress]

/-- Spawn performed for one GPU by the gpu-utilization POST: only a truthy,
validated bus address reaches the command line. -/
def gpuUtilSpawnOf (osVersion : String) (gpu : GpuData) :
    Option (List String) :=
  if busaddrTruthy gpu.busaddr &&
      isValidBusAddress_gpuUtil (gpu.busaddr.getD "") then
    some (gpuUtilCommandArgs osVersion ("pci:slot=0000:" ++ gpu.busaddr.getD ""))
  else none

/-- All argument vectors the gpu-utilization POST spawns for a GPU list. -/
def gpuUtilizationSpawns (osVersion : String) (gpus : List GpuData) :
    List (List String) :=
  gpus.filterMap (gpuUtilSpawnOf osVersion)

/-! ## gpu-memory route (src/frontend/src/app/custom/gpu-memory/route.ts)

Only the validator and the guard on the spawned command line are needed by
the claims; the per-device statistics promise mirrors the gpu-utilization
shape. -/

/-- Character-level body of the optional domain prefix alternative of the
gpu-memory regex: four hex digits, a colon, then the core pattern. -/
def busDomainChars : List Char → Bool
  | a :: b :: c :: d :: e :: rest =>
    isHexChar a && isHexChar b && isHexChar c && isHexChar d && e = ':' &&
      busCoreChars rest
  | _ => false

/-- Embeds the gpu-memory route's `isValidBusAddress`: the regex
`^([0-9a-fA-F]{4}:)?([0-9a-fA-F]{2}):([0-9a-fA-F]{2})\.[0-9]$`, an
alternation between the domain-prefixed and the bare core shape. -/
def isValidBusAddress_gpuMem (s : String) : Bool :=
  busDomainChars s.data || busCoreChars s.data

/-- Spawn performed for one GPU by the gpu-memory POST
(`spawn(xpusmiCommand, ['stats', '-d', gpu.busaddr, '-j'])`): only a truthy,
validated bus address reaches the command line. -/
def gpuMemSpawnOf (gpu : GpuData) : Option (List String) :=
  if busaddrTruthy gpu.busaddr &&
      isValidBusAddress_gpuMem (gpu.busaddr.getD "") then
    some ["stats", "-d", gpu.busaddr.getD "", "-j"]
  else none

/-- All argument vectors the gpu-memory POST spawns for a GPU list. -/
def gpuMemorySpawns (gpus : List GpuData) : List (List String) :=
  gpus.filterMap gpuMemSpawnOf

/-! ## power route (the power-metrics `GET` collocated with
deleteWorkloadAfterDelete.ts in src)

The HTTP client is an oracle; the result records the response produced and
the number of network requests issued. -/

/-- Fields of the daemon's JSON the route reads. The outer `Option` of
`uncoreJoules` models a missing `Uncore Aggregate` / `Uncore Counters`
object, whose property access throws into the catch block. -/
structure PowerData where
  intervalUs : Option Int
  uncoreJoules : Option (Option Int)
deriving DecidableEq, Repr

/-- Outcome of the `axios.get` call. -/
inductive HttpOutcome
  | response (status : Nat) (data : PowerData)
  | netError (msg : String)
deriving DecidableEq, Repr

/-- Response of the power `GET`: the JSON body, or the catch-block plain 500
response. -/
inductive PowerResponse
  | json (intervalUs joulesConsumed : Option Int)
  | failure (status : Nat)
deriving DecidableEq, Repr

/-- Result of one power `GET`: the response and how many HTTP requests were
issued. -/
structure PowerGetResult where
  response : PowerResponse
  requests : Nat
deriving DecidableEq, Repr

/-- Embeds the power-metrics `GET`: on Windows it answers
`intervalUs: null, joulesConsumed: null` before any network activity;
otherwise it issues one request and maps its outcome (non-2xx statuses and
thrown errors reach the catch block as a 500). -/
def powerGET (isWin : Bool) (http : Unit → HttpOutcome) : PowerGetResult :=
  if isWin then ⟨PowerResponse.json none none, 0⟩
  else
    match http () with
    | HttpOutcome.netError _ => ⟨PowerResponse.failure 500, 1⟩
    | HttpOutcome.response status data =>
      if status < 200 || 300 ≤ status then ⟨PowerResponse.failure 500, 1⟩
      else
        match data.uncoreJoules with
        | none => ⟨PowerResponse.failure 500, 1⟩
        | some j => ⟨PowerResponse.json data.intervalUs j, 1⟩

/-! ## xpum-gpu discovery route
(src/frontend/src/app/custom/xpum-gpu/route.ts) -/

/-- Event delivered by the spawned discovery process. A stdout event carries
the `device_list` the route maps out of the parsed JSON (a chunk whose
`JSON.parse` throws escapes the promise entirely — the handler has no
try/catch — and is outside this embedding). -/
inductive DiscoveryEvent
  | stderrData
  | stdoutData (deviceList : List (String × String))
  | errorEvt (msg : String)
deriving DecidableEq, Repr

/-- Response of the discovery `GET`. -/
inductive DiscoveryResponse
  | ok (gpus : List GpuData)
  | serverError (msg : String)
deriving DecidableEq, Repr

/-- Embeds the xpum-gpu `GET`: the first event settles the inner promise —
stderr resolves with the still-empty device list, stdout resolves with the
mapped `device_list`, a spawn error rejects into the catch block, which
answers with a 500 error body. `none` models a promise that never settles. -/
def xpumGpuGET : List DiscoveryEvent → Option DiscoveryResponse
  | [] => none
  | DiscoveryEvent.stderrData :: _ => some (DiscoveryResponse.ok [])
  | DiscoveryEvent.stdoutData dl :: _ =>
    some (DiscoveryResponse.ok (dl.map (fun p => ⟨p.1, some p.2⟩)))
  | DiscoveryEvent.errorEvt m :: _ => some (DiscoveryResponse.serverError m)

/-! ## camera devices route (src/unnamed/part_008, Linux branch) -/

/-- Outcome of `execAsync('v4l2-ctl --list-devices')`. -/
inductive CamExec
  | ok (stdout : String)
  | err (msg : String)
deriving DecidableEq, Repr

/-- Embeds the Linux branch of the camera-devices `GET`: nonblank lines not
starting with a tab are device names, indexed in order; any thrown error is
caught and answered as an empty device map — the status is 200 either way.
The result is the status and the name-to-index assignments in order. -/
def camerasGET (exec : CamExec) : Nat × List (String × Nat) :=
  match exec with
  | CamExec.err _ => (200, [])
  | CamExec.ok out =>
    let lines := ((splitChar (Char.ofNat 10) out.data).map String.mk).filter
      (fun l => l.trim ≠ "")
    let names := (lines.filter (fun l => !(strStartsWith l "\t"))).map String.trim
    (200, names.enum.map (fun p => (p.2, p.1)))

/-! ## npu-utilization route
(src/frontend/src/app/custom/npu-utilization/route.ts) -/

/-- Modelled from the spec: the not-available marker exported by the
constants module (`@/lib/constants`), which is not among the provided source
files; the spec calls it "a not-available marker" and its exact text is
immaterial to every property proved about it. -/
def NOT_AVAILABLE : String := "N/A"

/-- Embeds the npu-utilization `GET`: scan the available OpenVINO devices,
remembering the `FULL_DEVICE_NAME` of each device whose id starts with
`NPU` (the last one wins), and answer with that name — or the not-available
marker — and a `null` value. The device list and the property query are
oracles for the OpenVINO runtime. -/
def npuGET (availableDevices : List String)
    (fullDeviceName : String → String) : String × Option Int :=
  let deviceName := availableDevices.foldl
    (fun acc device =>
      if device.startsWith "NPU" then fullDeviceName device else acc)
    NOT_AVAILABLE
  (deviceName, none)

/-! ## Shared helper definitions and lemmas -/

/-- Comma-joining of a device list as the spec words it: the entries in
order, separated by single commas. -/
def joinComma : List String → String
  | [] => ""
  | [x] => x
  | x :: y :: xs => x ++ "," ++ joinComma (y :: xs)

/-- Tail form of comma-joining: a leading comma before every entry. -/
def commaTail : List String → String
  | [] => ""
  | x :: xs => "," ++ x ++ commaTail xs

theorem joinComma_cons (x : String) (xs : List String) :
    joinComma (x :: xs) = x ++ commaTail xs := by
  induction xs generalizing x with
  | nil => simp [joinComma, commaTail, String.append_empty]
  | cons y ys ih =>
    simp only [joinComma, commaTail]
    rw [ih y, String.append_assoc, String.append_assoc]

theorem string_append_ne_empty_of_mid (a x : String) :
    a ++ "," ++ x ≠ "" := by
  intro h
  have hlen := congrArg String.length h
  rw [String.length_append, String.length_append] at hlen
  have h1 : String.length "," = 1 := rfl
  have h2 : String.length "" = 0 := rfl
  rw [h1, h2] at hlen
  omega

theorem foldComma_acc (xs : List String) :
    ∀ acc : String, acc ≠ "" →
      xs.foldl (fun acc n => if acc = "" then n else acc ++ "," ++ n) acc =
        acc ++ commaTail xs := by
  induction xs with
  | nil => intro acc _; simp [commaTail, String.append_empty]
  | cons x rest ih =>
    intro acc hacc
    simp only [List.foldl_cons, if_neg hacc]
    rw [ih (acc ++ "," ++ x) (string_append_ne_empty_of_mid acc x)]
    simp only [commaTail]
    rw [String.append_assoc, String.append_assoc, String.append_assoc]

theorem foldDevices_to_names (rest : List DeviceSel) (acc : String) :
    rest.foldl
      (fun acc d =>
        if acc = "" then d.device.getD "" else acc ++ "," ++ d.device.getD "")
      acc =
    (rest.map (fun d => d.device.getD "")).foldl
      (fun acc n => if acc = "" then n else acc ++ "," ++ n) acc := by
  rw [List.foldl_map]

theorem devicesNameOf_eq_joinComma (devices : List DeviceSel)
    (h : ∀ d ∈ devices, d.device.getD "" ≠ "") :
    devicesNameOf devices =
      joinComma (devices.map (fun d => d.device.getD "")) := by
  cases devices with
  | nil => rfl
  | cons d rest =>
    have hd : d.device.getD "" ≠ "" := h d (List.mem_cons_self d rest)
    simp only [devicesNameOf, List.foldl_cons, List.map_cons]
    rw [joinComma_cons]
    simp only [if_true]
    rw [foldDevices_to_names,
      foldComma_acc (rest.map (fun e => e.device.getD "")) _ hd]

theorem promiseAll_cons_ok {α : Type} (a : α)
    (xs : List (Option (Except String α))) :
    promiseAll (some (Except.ok a) :: xs) =
      match promiseAll xs with
      | some (Except.ok ys) => some (Except.ok (a :: ys))
      | some (Except.error e) => some (Except.error e)
      | none => none := by
  simp only [promiseAll, List.findSome?_cons, List.all_cons, List.filterMap_cons,
    Option.isSome_some, Bool.true_and]
  cases hfs : xs.findSome? (fun x =>
      match x with
      | some (Except.error e) => some e
      | _ => none) with
  | some e => rfl
  | none =>
    cases hall : xs.all (fun x => x.isSome) with
    | true => simp [hfs, hall]
    | false => simp [hfs, hall]

theorem getLast?_cons_ne_none (y : String) (ys : List String) :
    (y :: ys).getLast? ≠ none := by
  induction ys generalizing y with
  | nil => simp [List.getLast?]
  | cons z zs ih => rw [List.getLast?_cons_cons]; exact ih z

theorem npuFold_eq (f : String → String) (l : List String) :
    ∀ acc : String,
      l.foldl (fun acc device =>
        if device.startsWith "NPU" then f device else acc) acc =
      (match (l.filter (fun d => d.startsWith "NPU")).getLast? with
       | some d => f d
       | none => acc) := by
  induction l with
  | nil => intro acc; rfl
  | cons d rest ih =>
    intro acc
    rw [List.foldl_cons]
    by_cases hd : d.startsWith "NPU" = true
    · rw [if_pos hd, ih (f d)]
      cases hrest : rest.filter (fun d => d.startsWith "NPU") with
      | nil => simp [List.filter_cons, hd, hrest]
      | cons y ys =>
        simp only [List.filter_cons, hd, if_true, hrest, List.getLast?_cons_cons]
        cases hys : (y :: ys).getLast? with
        | some z => rfl
        | none => exact absurd hys (getLast?_cons_ne_none y ys)
    · rw [if_neg hd, ih acc]
      simp [List.filter_cons, hd]

/-! ## Claim theorems -/

/-- C8: a power-metric poll on a platform without the monitoring daemon
(Windows) answers `intervalUs: null, joulesConsumed: null` immediately and
issues zero network requests, whatever the HTTP oracle would have answered. -/
theorem powerGET_windows_no_network (http : Unit → HttpOutcome) :
    powerGET true http = ⟨PowerResponse.json none none, 0⟩ := rfl

/-- C10: the npu-utilization endpoint always answers a `null` value, and its
name field is the `FULL_DEVICE_NAME` of the last device whose id starts with
`NPU` when one exists, and the not-available marker otherwise; a numeric NPU
utilization value is never produced. -/
theorem npuGET_value_always_null (devs : List String) (f : String → String) :
    (npuGET devs f).2 = none ∧
    (npuGET devs f).1 =
      (match (devs.filter (fun d => d.startsWith "NPU")).getLast? with
       | some d => f d
       | none => NOT_AVAILABLE) := by
  refine ⟨rfl, ?_⟩
  simp only [npuGET]
  exact npuFold_eq f devs NOT_AVAILABLE

/-- C9 counterexample: when the vendor discovery tool is unavailable the
spawn emits an `error` event, the discovery promise rejects, and the caller
receives a 500 error response — not the empty sequence the claim promises. -/
theorem xpumGpuGET_spawn_error_fails_caller_cex :
    xpumGpuGET [DiscoveryEvent.errorEvt "spawn xpumcli ENOENT"] =
      some (DiscoveryResponse.serverError "spawn xpumcli ENOENT") := rfl

/-- C9 (amended): camera-device discovery never fails the caller (any
thrown error is answered as status 200 with an empty device map), and GPU
discovery answers an empty (or mapped) device list when the tool reports
via stderr (or stdout); but a spawn `error` event rejects and the route
answers a 500 error response — there is no in-route fallback. -/
theorem discovery_error_behavior :
    (∀ e, (camerasGET e).1 = 200) ∧
    (∀ rest, xpumGpuGET (DiscoveryEvent.stderrData :: rest) =
      some (DiscoveryResponse.ok [])) ∧
    (∀ dl rest, xpumGpuGET (DiscoveryEvent.stdoutData dl :: rest) =
      some (DiscoveryResponse.ok (dl.map (fun p => ⟨p.1, some p.2⟩)))) ∧
    (∀ m rest, xpumGpuGET (DiscoveryEvent.errorEvt m :: rest) =
      some (DiscoveryResponse.serverError m)) := by
  refine ⟨?_, fun _ => rfl, fun _ _ => rfl, fun _ _ => rfl⟩
  intro e
  cases e <;> rfl

/-- C2 counterexample: a start call whose workload id contains a disallowed
character (here a semicolon) is not rejected: the call proceeds and the
command line is built from the silently-stripped identifier. -/
theorem startPm2Process_disallowed_chars_not_rejected_cex :
    (sanitizePm2Token "7;x" == "7;x") = false ∧
    (startPm2Process false (fun _ => Except.ok "") "7;x" "" "").outcome =
      Except.ok () ∧
    (startPm2Process false (fun _ => Except.ok "") "7;x" "" "").commands =
      ["npx pm2 start 7x"] := by
  refine ⟨by decide, rfl, by decide⟩

/-- C2 (amended): `startPm2Process` silently strips disallowed characters
from each input and always proceeds to execute exactly one pm2 command built
from the sanitized values; the call fails only when that command itself
fails — sanitization never rejects. -/
theorem startPm2Process_sanitizes_and_proceeds (isWin : Bool)
    (exec : String → Except String String)
    (pm2Name scriptName params : String) :
    (startPm2Process isWin exec pm2Name scriptName params).commands =
      [startCommand isWin (sanitizePm2Token pm2Name)
        (sanitizePm2Token scriptName) (sanitizePm2Params params)] ∧
    (startPm2Process isWin (fun _ => Except.ok "") pm2Name scriptName
        params).outcome = Except.ok () ∧
    ((startPm2Process isWin exec pm2Name scriptName params).outcome =
        Except.ok () ↔
      ∃ out, exec (startCommand isWin (sanitizePm2Token pm2Name)
        (sanitizePm2Token scriptName) (sanitizePm2Params params)) =
          Except.ok out) := by
  refine ⟨rfl, rfl, ?_⟩
  simp only [startPm2Process, runCommand]
  cases h : exec (startCommand isWin (sanitizePm2Token pm2Name)
      (sanitizePm2Token scriptName) (sanitizePm2Params params)) with
  | ok out => simp [h, Except.map]
  | error e => simp [h, Except.map]

/-- C3 counterexample: stopping a workload id is not free of side effects —
the pm2 stop command is executed unconditionally — and when that command
fails (as pm2 does for an unknown process name) the error propagates to the
caller instead of completing as a no-op. -/
theorem stopPm2Process_not_noop_cex :
    (stopPm2Process (fun _ => Except.ok "") "42").commands =
      ["npx pm2 stop 42"] ∧
    (stopPm2Process
        (fun _ => Except.error "process or namespace not found")
        "42").outcome =
      Except.error "process or namespace not found" := by
  refine ⟨by decide, by decide⟩

/-- C3 (amended): `stopPm2Process` always executes exactly one command,
`npx pm2 stop` on the sanitized id, and completes without an exception
precisely when that command succeeds; any command failure propagates. -/
theorem stopPm2Process_runs_command_and_propagates
    (exec : String → Except String String) (name : String) :
    (stopPm2Process exec name).commands =
      [stopCommand (sanitizePm2Token name)] ∧
    ((stopPm2Process exec name).outcome = Except.ok () ↔
      ∃ out, exec (stopCommand (sanitizePm2Token name)) = Except.ok out) := by
  refine ⟨rfl, ?_⟩
  simp only [stopPm2Process, runCommand]
  cases h : exec (stopCommand (sanitizePm2Token name)) with
  | ok out => simp [h, Except.map]
  | error e => simp [h, Except.map]

/-- C7 counterexample: `0000:00:02.0` is of the claimed accepted shape (a
domain-prefixed hex-pair:hex-pair.digit bus address), yet the
gpu-utilization route's validator rejects it — the claim's "accepts every
string of the form ..., optionally domain-prefixed" fails for that
validator. -/
theorem busAddress_domain_form_rejected_cex :
    busDomainChars "0000:00:02.0".data = true ∧
    isValidBusAddress_gpuUtil "0000:00:02.0" = false ∧
    isValidBusAddress_gpuMem "0000:00:02.0" = true := by
  refine ⟨by decide, by decide, by decide⟩

/-- C7 (amended): both validators accept `00:02.0` and reject `; rm -rf /`;
the gpu-memory validator additionally accepts the domain-prefixed form
(which the gpu-utilization validator rejects); and in both routes a bus
address reaches a spawned command line only after its route's validator
accepted it. -/
theorem busAddress_validators_characterization :
    isValidBusAddress_gpuUtil "00:02.0" = true ∧
    isValidBusAddress_gpuMem "00:02.0" = true ∧
    isValidBusAddress_gpuMem "0000:00:02.0" = true ∧
    isValidBusAddress_gpuUtil "; rm -rf /" = false ∧
    isValidBusAddress_gpuMem "; rm -rf /" = false ∧
    (∀ osVersion gpus args, args ∈ gpuUtilizationSpawns osVersion gpus →
      ∃ addr, isValidBusAddress_gpuUtil addr = true ∧
        args = gpuUtilCommandArgs osVersion ("pci:slot=0000:" ++ addr)) ∧
    (∀ gpus args, args ∈ gpuMemorySpawns gpus →
      ∃ addr, isValidBusAddress_gpuMem addr = true ∧
        args = ["stats", "-d", addr, "-j"]) := by
  refine ⟨by decide, by decide, by decide, by decide, by decide, ?_, ?_⟩
  · intro osVersion gpus args hmem
    simp only [gpuUtilizationSpawns] at hmem
    rw [List.mem_filterMap] at hmem
    obtain ⟨gpu, _, hspawn⟩ := hmem
    unfold gpuUtilSpawnOf at hspawn
    by_cases hc : (busaddrTruthy gpu.busaddr &&
        isValidBusAddress_gpuUtil (gpu.busaddr.getD "")) = true
    · rw [if_pos hc] at hspawn
      rw [Bool.and_eq_true] at hc
      exact ⟨gpu.busaddr.getD "", hc.2, (Option.some.inj hspawn).symm⟩
    · rw [if_neg hc] at hspawn
      exact absurd hspawn (by simp)
  · intro gpus args hmem
    simp only [gpuMemorySpawns] at hmem
    rw [List.mem_filterMap] at hmem
    obtain ⟨gpu, _, hspawn⟩ := hmem
    unfold gpuMemSpawnOf at hspawn
    by_cases hc : (busaddrTruthy gpu.busaddr &&
        isValidBusAddress_gpuMem (gpu.busaddr.getD "")) = true
    · rw [if_pos hc] at hspawn
      rw [Bool.and_eq_true] at hc
      exact ⟨gpu.busaddr.getD "", hc.2, (Option.some.inj hspawn).symm⟩
    · rw [if_neg hc] at hspawn
      exact absurd hspawn (by simp)

/-- C7 witness: the gpu-utilization spawn guard applied to a concrete GPU
list: the single spawned argument vector comes with a validated address. -/
theorem busAddress_validators_characterization_witness :
    (["-J", "-d", "pci:slot=0000:00:02.0"] ∈
      gpuUtilizationSpawns "22.04" [⟨"iGPU", some "00:02.0"⟩]) ∧
    (∃ addr, isValidBusAddress_gpuUtil addr = true ∧
      ["-J", "-d", "pci:slot=0000:00:02.0"] =
        gpuUtilCommandArgs "22.04" ("pci:slot=0000:" ++ addr)) := by
  have he : gpuUtilizationSpawns "22.04" [⟨"iGPU", some "00:02.0"⟩] =
      [["-J", "-d", "pci:slot=0000:00:02.0"]] := by decide
  have hm : ["-J", "-d", "pci:slot=0000:00:02.0"] ∈
      gpuUtilizationSpawns "22.04" [⟨"iGPU", some "00:02.0"⟩] := by
    rw [he]; exact List.mem_singleton_self _
  exact ⟨hm, busAddress_validators_characterization.2.2.2.2.2.1 "22.04"
    [⟨"iGPU", some "00:02.0"⟩] ["-J", "-d", "pci:slot=0000:00:02.0"] hm⟩

/-- C1 counterexample: first, deleting a workload whose owned file name
carries a disallowed character (a space) makes the filename allow-list
reject, the hook returns early, and neither stop nor delete is invoked;
second, even past the file block, a failing `npx pm2 stop` (as pm2 reports
for a non-running id) propagates out of the hook and `deletePm2Process` is
never invoked — in both scenarios the claimed unconditional stop-then-delete
does not happen. -/
theorem deleteWorkloadAfterDelete_validation_skips_cleanup_cex :
    deleteWorkloadAfterDelete "/assets/media" (fun _ => false)
      (fun _ => Except.ok ()) (fun _ => Except.ok "")
      ⟨7, "active", "text generation", "m", 5000, [],
        some ⟨"file", "bad name.mp4"⟩⟩ =
      ⟨[], Except.ok ()⟩ ∧
    deleteWorkloadAfterDelete "/assets/media" (fun _ => false)
      (fun _ => Except.ok ())
      (fun _ => Except.error "process or namespace not found")
      ⟨9, "inactive", "text generation", "m", 5000, [], none⟩ =
      ⟨[DeleteEffect.pm2stop "9"],
        Except.error "process or namespace not found"⟩ := by
  refine ⟨by decide, by decide⟩

/-- C1 (amended): on validation rejection the hook returns early and makes
neither pm2 call; otherwise, if the decided unlink throws, the exception
propagates and neither pm2 call is made; otherwise `stopPm2Process(id)` is
invoked, and `deletePm2Process(id)` follows exactly when the stop command
succeeded — a stop failure propagates out of the hook and skips the delete,
and a delete failure propagates after both invocations. -/
theorem deleteWorkloadAfterDelete_pm2_cleanup_characterization
    (assetsPath : String) (fsExists : String → Bool)
    (unlink : String → Except String Unit)
    (exec : String → Except String String) (doc : Workload) :
    (deleteValidationRejects assetsPath fsExists doc = true ∧
      deleteWorkloadAfterDelete assetsPath fsExists unlink exec doc =
        ⟨[], Except.ok ()⟩) ∨
    (deleteValidationRejects assetsPath fsExists doc = false ∧
      ((∃ p e, deleteFileStep assetsPath fsExists doc = some (some p) ∧
          unlink p = Except.error e ∧
          deleteWorkloadAfterDelete assetsPath fsExists unlink exec doc =
            ⟨[DeleteEffect.unlink p], Except.error e⟩) ∨
       (∃ pre e,
          (stopPm2Process exec (toString doc.id)).outcome = Except.error e ∧
          deleteWorkloadAfterDelete assetsPath fsExists unlink exec doc =
            ⟨pre ++ [DeleteEffect.pm2stop (toString doc.id)],
              Except.error e⟩) ∨
       (∃ pre,
          (stopPm2Process exec (toString doc.id)).outcome = Except.ok () ∧
          deleteWorkloadAfterDelete assetsPath fsExists unlink exec doc =
            ⟨pre ++ [DeleteEffect.pm2stop (toString doc.id),
                     DeleteEffect.pm2delete (toString doc.id)],
              (deletePm2Process exec (toString doc.id)).outcome⟩))) := by
  cases hstep : deleteFileStep assetsPath fsExists doc with
  | none =>
    left
    exact ⟨by simp [deleteValidationRejects, hstep],
      by simp [deleteWorkloadAfterDelete, hstep]⟩
  | some act =>
    right
    refine ⟨by simp [deleteValidationRejects, hstep], ?_⟩
    cases act with
    | none =>
      cases hstop : (stopPm2Process exec (toString doc.id)).outcome with
      | error e =>
        exact Or.inr (Or.inl ⟨[], e, rfl,
          by simp [deleteWorkloadAfterDelete, hstep, pm2Cleanup, hstop]⟩)
      | ok u0 =>
        cases u0
        exact Or.inr (Or.inr ⟨[], rfl,
          by simp [deleteWorkloadAfterDelete, hstep, pm2Cleanup, hstop]⟩)
    | some p =>
      cases hu : unlink p with
      | error e =>
        exact Or.inl ⟨p, e, rfl, hu,
          by simp [deleteWorkloadAfterDelete, hstep, hu]⟩
      | ok u0 =>
        cases u0
        cases hstop : (stopPm2Process exec (toString doc.id)).outcome with
        | error e =>
          exact Or.inr (Or.inl ⟨[DeleteEffect.unlink p], e, rfl,
            by simp [deleteWorkloadAfterDelete, hstep, hu, pm2Cleanup, hstop]⟩)
        | ok u1 =>
          cases u1
          exact Or.inr (Or.inr ⟨[DeleteEffect.unlink p], rfl,
            by simp [deleteWorkloadAfterDelete, hstep, hu, pm2Cleanup, hstop]⟩)

theorem deleteFileStep_unlink_requires
    (assetsPath : String) (fsExists : String → Bool) (doc : Workload)
    (src : WorkloadSource) (p : String) (hsrc : doc.source = some src)
    (h : deleteFileStep assetsPath fsExists doc = some (some p)) :
    strStartsWith (resolveJoin assetsPath (posixBasename src.name))
      assetsPath = true ∧
    filenameAllowList (posixBasename src.name) = true := by
  unfold deleteFileStep at h
  rw [hsrc] at h
  simp only [] at h
  by_cases h1 : (src.type = "file" && src.name ≠ "") = true
  · rw [if_pos h1] at h
    by_cases h2 : strStartsWith (resolveJoin assetsPath
        (posixBasename src.name)) assetsPath = true
    · by_cases h3 : filenameAllowList (posixBasename src.name) = true
      · exact ⟨h2, h3⟩
      · simp only [Bool.not_eq_true] at h3
        simp [h2, h3] at h
    · simp only [Bool.not_eq_true] at h2
      simp [h2] at h
  · rw [if_neg h1] at h
    simp at h

/-- C5: when the resolved candidate path falls outside the trusted media
directory, or the filename fails the strict allow-list, the after-delete
hook never attempts to unlink any file. -/
theorem deleteWorkloadAfterDelete_no_unlink_outside_trusted
    (assetsPath : String) (fsExists : String → Bool)
    (unlink : String → Except String Unit)
    (exec : String → Except String String) (doc : Workload)
    (src : WorkloadSource) (hsrc : doc.source = some src)
    (hbad : strStartsWith (resolveJoin assetsPath (posixBasename src.name))
        assetsPath = false ∨
      filenameAllowList (posixBasename src.name) = false) :
    ∀ p, DeleteEffect.unlink p ∉
      (deleteWorkloadAfterDelete assetsPath fsExists unlink exec
        doc).effects := by
  intro p hmem
  unfold deleteWorkloadAfterDelete at hmem
  cases hstep : deleteFileStep assetsPath fsExists doc with
  | none => rw [hstep] at hmem; simp at hmem
  | some act =>
    cases act with
    | none =>
      rw [hstep] at hmem
      unfold pm2Cleanup at hmem
      cases hstop : (stopPm2Process exec (toString doc.id)).outcome with
      | error e => rw [hstop] at hmem; simp at hmem
      | ok u0 => cases u0; rw [hstop] at hmem; simp at hmem
    | some q =>
      obtain ⟨hss, hfa⟩ := deleteFileStep_unlink_requires assetsPath fsExists
        doc src q hsrc hstep
      rcases hbad with h2 | h2
      · rw [h2] at hss; exact Bool.noConfusion hss
      · rw [h2] at hfa; exact Bool.noConfusion hfa

/-- C5 witness: a concrete workload whose file name fails the allow-list
(it contains a space): the hook attempts no deletion. -/
theorem deleteWorkloadAfterDelete_no_unlink_outside_trusted_witness :
    filenameAllowList (posixBasename "bad name.mp4") = false ∧
    DeleteEffect.unlink "/assets/media/bad name.mp4" ∉
      (deleteWorkloadAfterDelete "/assets/media" (fun _ => true)
        (fun _ => Except.ok ()) (fun _ => Except.ok "")
        ⟨7, "active", "text generation", "m", 5000, [],
          some ⟨"file", "bad name.mp4"⟩⟩).effects :=
  ⟨by decide,
    deleteWorkloadAfterDelete_no_unlink_outside_trusted "/assets/media"
      (fun _ => true) (fun _ => Except.ok ()) (fun _ => Except.ok "")
      ⟨7, "active", "text generation", "m", 5000, [],
        some ⟨"file", "bad name.mp4"⟩⟩
      ⟨"file", "bad name.mp4"⟩ rfl (Or.inr (by decide))
      "/assets/media/bad name.mp4"⟩

/-- C4: on a transition to status `prepare`, the hook issues exactly one
start call whose parameters begin with `--device` followed by the ordered
device ids joined by commas — `AUTO:`-marked exactly when more than one
device is selected, the bare device id otherwise — then `--model`, `--port`
and `--id` with the record's values (further usecase-specific arguments may
follow). -/
theorem createWorkloadAfterChange_prepare_args
    (assetsPath previousStatus : String) (doc : Workload)
    (hst : doc.status = "prepare")
    (hdev : ∀ d ∈ doc.devices, d.device.getD "" ≠ "") :
    ∃ usecaseName extra,
      createWorkloadAfterChange assetsPath previousStatus doc =
        [HookCall.startCall (toString doc.id) usecaseName
          ("--device " ++
            (if 1 < doc.devices.length then
              "AUTO:" ++ joinComma (doc.devices.map (fun d => d.device.getD ""))
            else joinComma (doc.devices.map (fun d => d.device.getD ""))) ++
            " --model " ++ doc.model ++ " --port " ++ toString doc.port ++
            " --id " ++ toString doc.id ++ extra)] := by
  unfold createWorkloadAfterChange
  rw [hst]
  rw [devicesNameOf_eq_joinComma doc.devices hdev]
  have hb1 : (previousStatus = "active" && ("prepare" : String) = "inactive")
      = false := by simp
  have hb2 : (previousStatus = "inactive" && ("prepare" : String) = "active")
      = false := by simp
  have hb3 : (("prepare" : String) = "prepare") = True := by simp
  simp only [hb1, hb2, hb3, Bool.false_eq_true, if_false, if_true]
  cases hsrc : doc.source with
  | none =>
    refine ⟨doc.usecase, "", ?_⟩
    simp [String.append_empty]
  | some src =>
    by_cases hdl : (strIncludes doc.usecase "(DLStreamer" && src.name ≠ "") = true
    · simp only [hdl]
      refine ⟨"dlstreamer",
        (if doc.port ≠ 0 then " --tcp_port " ++ toString (doc.port + 1000)
         else "") ++
        (if src.type ≠ "cam" then
          " --input " ++ (assetsPath ++ "/" ++ src.name)
         else " --input " ++ src.name), ?_⟩
      by_cases hp : doc.port ≠ 0 <;> by_cases hc : src.type ≠ "cam" <;>
        simp [hp, hc, String.append_assoc, String.append_empty]
    · simp only [hdl]
      refine ⟨doc.usecase, "", ?_⟩
      simp [String.append_empty]

/-- C4 witness: the spec's example record (devices `[A, B]`, model `M`,
port 5001, id 7) composes `--device AUTO:A,B --model M --port 5001 --id 7`,
and a single-device record composes the bare device id with no `AUTO:`
marker. -/
theorem createWorkloadAfterChange_prepare_args_witness :
    ((⟨7, "prepare", "text generation", "M", 5001,
        [⟨some "A"⟩, ⟨some "B"⟩], none⟩ : Workload).status = "prepare") ∧
    (∀ d ∈ (⟨7, "prepare", "text generation", "M", 5001,
        [⟨some "A"⟩, ⟨some "B"⟩], none⟩ : Workload).devices,
      d.device.getD "" ≠ "") ∧
    (∃ usecaseName extra,
      createWorkloadAfterChange "/assets" "active"
          (⟨7, "prepare", "text generation", "M", 5001,
            [⟨some "A"⟩, ⟨some "B"⟩], none⟩ : Workload) =
        [HookCall.startCall
          (toString (⟨7, "prepare", "text generation", "M", 5001,
            [⟨some "A"⟩, ⟨some "B"⟩], none⟩ : Workload).id) usecaseName
          ("--device " ++
            (if 1 < (⟨7, "prepare", "text generation", "M", 5001,
                [⟨some "A"⟩, ⟨some "B"⟩], none⟩ : Workload).devices.length then
              "AUTO:" ++ joinComma ((⟨7, "prepare", "text generation", "M",
                5001, [⟨some "A"⟩, ⟨some "B"⟩], none⟩ :
                  Workload).devices.map (fun d => d.device.getD ""))
            else joinComma ((⟨7, "prepare", "text generation", "M", 5001,
              [⟨some "A"⟩, ⟨some "B"⟩], none⟩ :
                Workload).devices.map (fun d => d.device.getD ""))) ++
            " --model " ++ "M" ++ " --port " ++ toString (5001 : Nat) ++
            " --id " ++ toString (7 : Nat) ++ extra)]) ∧
    (createWorkloadAfterChange "/assets" "active"
        (⟨7, "prepare", "text generation", "M", 5001,
          [⟨some "A"⟩, ⟨some "B"⟩], none⟩ : Workload) =
      [HookCall.startCall "7" "text generation"
        "--device AUTO:A,B --model M --port 5001 --id 7"]) ∧
    (createWorkloadAfterChange "/assets" "none"
        (⟨8, "prepare", "text generation", "M", 5002,
          [⟨some "A"⟩], none⟩ : Workload) =
      [HookCall.startCall "8" "text generation"
        "--device A --model M --port 5002 --id 8"]) :=
  ⟨rfl, by decide,
    createWorkloadAfterChange_prepare_args "/assets" "active"
      ⟨7, "prepare", "text generation", "M", 5001,
        [⟨some "A"⟩, ⟨some "B"⟩], none⟩ rfl (by decide),
    by decide, by decide⟩

theorem gpuSampleOutcome_ok_device
    (parseJson : String → Except String EnginesJson) (osVersion : String)
    (events : GpuData → List ProcEvent) (gpu : GpuData) (s : GpuSample)
    (h : gpuSampleOutcome parseJson osVersion events gpu =
      some (Except.ok s)) :
    s.device = gpu.device := by
  unfold gpuSampleOutcome at h
  by_cases hc : (busaddrTruthy gpu.busaddr &&
      isValidBusAddress_gpuUtil (gpu.busaddr.getD "")) = true
  · rw [if_pos hc] at h
    cases hg : getGpuUtilizationLinux parseJson osVersion (events gpu) with
    | none => rw [hg] at h; exact absurd h (by simp)
    | some st =>
      rw [hg] at h
      cases st with
      | resolved v =>
        have hs := Except.ok.inj (Option.some.inj h)
        rw [← hs]
      | rejected e => exact absurd h (by simp)
  · rw [if_neg hc] at h
    have hs := Except.ok.inj (Option.some.inj h)
    rw [← hs]

/-- C6 counterexample: two GPUs with valid bus addresses; the first device's
adapter emits unparsable stdout, its promise rejects, the joint
`Promise.all` rejects, and the endpoint answers a 500 error — the second
device's sample (which resolved via stderr) is omitted from the response,
contradicting the claimed per-device isolation. -/
theorem gpuUtilizationPOST_rejection_drops_all_cex :
    gpuUtilizationPOST (fun _ => Except.ok ⟨none⟩) "24.04.1"
      (fun g => if g.device = "cardA" then [ProcEvent.stdoutData "garbage"]
        else [ProcEvent.stderrData])
      [⟨"cardA", some "00:02.0"⟩, ⟨"cardB", some "00:03.0"⟩] =
      some (PostResponse.serverError "No JSON found") := by decide

/-- C6 (amended): when every device's per-device promise resolves — which
covers invalid bus addresses, adapter stderr output, and a close without
stdout, each resolving to a sample — the merged response succeeds and
contains one sample per device, in order; only a rejected per-device
promise (unparsable stdout, missing engines data, or a spawn error)
collapses the whole tick into a 500 error response. -/
theorem gpuUtilizationPOST_resolved_isolation
    (parseJson : String → Except String EnginesJson) (osVersion : String)
    (events : GpuData → List ProcEvent) (gpus : List GpuData)
    (h : ∀ gpu ∈ gpus, ∃ s,
      gpuSampleOutcome parseJson osVersion events gpu =
        some (Except.ok s)) :
    ∃ samples,
      gpuUtilizationPOST parseJson osVersion events gpus =
        some (PostResponse.ok samples) ∧
      samples.map (fun s => s.device) = gpus.map (fun g => g.device) := by
  induction gpus with
  | nil => exact ⟨[], rfl, rfl⟩
  | cons g gs ih =>
    obtain ⟨s, hs⟩ := h g (List.mem_cons_self g gs)
    obtain ⟨samples, hps, hmap⟩ :=
      ih (fun gpu hm => h gpu (List.mem_cons_of_mem g hm))
    refine ⟨s :: samples, ?_, ?_⟩
    · unfold gpuUtilizationPOST at hps ⊢
      rw [List.map_cons, hs, promiseAll_cons_ok]
      cases hall : promiseAll
          (gs.map (gpuSampleOutcome parseJson osVersion events)) with
      | none => rw [hall] at hps; exact absurd hps (by simp)
      | some r =>
        cases r with
        | ok ys =>
          rw [hall] at hps
          have hys : ys = samples := by
            have := Option.some.inj hps
            exact PostResponse.ok.inj this
          rw [hys]
        | error e => rw [hall] at hps; exact absurd hps (by simp)
    · rw [List.map_cons, List.map_cons, hmap]
      congr 1
      exact gpuSampleOutcome_ok_device parseJson osVersion events g s hs

/-- C6 witness: two devices, one failing via stderr (resolving 0) — the
merged response still carries one sample per device, in order. -/
theorem gpuUtilizationPOST_resolved_isolation_witness :
    (∀ gpu ∈ [(⟨"cardA", some "00:02.0"⟩ : GpuData),
        ⟨"cardB", some "00:03.0"⟩],
      ∃ s, gpuSampleOutcome (fun _ => Except.ok ⟨none⟩) "24.04.1"
        (fun _ => [ProcEvent.stderrData]) gpu = some (Except.ok s)) ∧
    ∃ samples,
      gpuUtilizationPOST (fun _ => Except.ok ⟨none⟩) "24.04.1"
        (fun _ => [ProcEvent.stderrData])
        [(⟨"cardA", some "00:02.0"⟩ : GpuData), ⟨"cardB", some "00:03.0"⟩] =
        some (PostResponse.ok samples) ∧
      samples.map (fun s => s.device) =
        [(⟨"cardA", some "00:02.0"⟩ : GpuData),
          ⟨"cardB", some "00:03.0"⟩].map (fun g => g.device) := by
  have hh : ∀ gpu ∈ [(⟨"cardA", some "00:02.0"⟩ : GpuData),
      ⟨"cardB", some "00:03.0"⟩],
      ∃ s, gpuSampleOutcome (fun _ => Except.ok ⟨none⟩) "24.04.1"
        (fun _ => [ProcEvent.stderrData]) gpu = some (Except.ok s) := by
    intro gpu hm
    simp only [List.mem_cons, List.mem_singleton] at hm
    rcases hm with rfl | hm
    · exact ⟨⟨"cardA", some "00:02.0", 0, none⟩, by decide⟩
    · rcases hm with rfl | hm
      · exact ⟨⟨"cardB", some "00:03.0", 0, none⟩, by decide⟩
      · exact absurd hm (List.not_mem_nil gpu)
  exact ⟨hh, gpuUtilizationPOST_resolved_isolation
    (fun _ => Except.ok ⟨none⟩) "24.04.1" (fun _ => [ProcEvent.stderrData])
    [(⟨"cardA", some "00:02.0"⟩ : GpuData), ⟨"cardB", some "00:03.0"⟩] hh⟩
